import Mathlib

/-!
Verification of the `memmodel` command: the pairwise model comparator in `main`
and the dot-graph emitter `writeModelGraph`.

The driver source (the `main` package excerpt) is embedded directly.  The
litmus-program data types, the outcome-set container and the model evaluators
live in files that are not part of the excerpt, so those are modelled from the
specification at the granularity the driver observes them: a program's first
operation type, outcome-set equality and containment, and the fixed list of
three models.
-/

/-- Modelled from the spec: the Operation variant set is
\x7bLoad, Store, Fence, Exit\x7d (§3); the `Exit` variant is listed first so
that it is the zero value, matching its documented use as the "no operation /
no counterexample" sentinel. The enum itself is in a source file missing from
the excerpt. -/
inductive OpType where
  | OpExit
  | OpLoad
  | OpStore
  | OpFence
deriving DecidableEq, Repr

/-- Modelled from the spec: an operation is a tagged variant carrying a
variable and a literal value (§3). Only the tag is observed by the driver. -/
structure Op where
  type : OpType
  opVar : Nat
  opVal : Nat
deriving DecidableEq, Repr

/-- Modelled from the spec: programs have a fixed number of threads
(typically 2, §3). -/
def MaxThreads : Nat := 2

/-- Modelled from the spec: threads have a fixed number of operation slots
(typically 2, §3). -/
def MaxOps : Nat := 2

instance : NeZero MaxThreads := ⟨by decide⟩

instance : NeZero MaxOps := ⟨by decide⟩

/-- Modelled from the spec: a thread is a fixed-size ordered sequence of
operations (a Go array, so every slot is always present). -/
structure Thread where
  Ops : Fin MaxOps → Op

/-- Modelled from the spec: a program is a fixed-size ordered collection of
threads (a Go array of arrays). -/
structure Prog where
  Threads : Fin MaxThreads → Thread

instance : DecidableEq Thread := fun a b =>
  decidable_of_iff (a.Ops = b.Ops) (by cases a; cases b; simp)

instance : DecidableEq Prog := fun a b =>
  decidable_of_iff (a.Threads = b.Threads) (by cases a; cases b; simp)

/-- The expression `p.Threads[0].Ops[0].Type` used by the driver at source
lines 242 and 309. -/
def Prog.firstOpType (p : Prog) : OpType := ((p.Threads 0).Ops 0).type

/-- The Go zero value of `Op`: tag `OpExit`, zero fields. -/
def zeroOp : Op := ⟨OpType.OpExit, 0, 0⟩

/-- The Go zero value of `Thread`. -/
def zeroThread : Thread := ⟨fun _ => zeroOp⟩

/-- The Go zero value of `Prog`: every operation slot holds the `OpExit`
sentinel.  `make([][]Prog, ...)` fills the counterexample table with it. -/
def zeroProg : Prog := ⟨fun _ => zeroThread⟩

/-- Modelled from the spec: an Outcome is a tuple of observed load values in a
fixed canonical order (§3). -/
abbrev Outcome := List Nat

/-- Modelled from the spec: an Outcome Set is a set of Outcomes; two sets are
equal iff they contain exactly the same Outcomes (§3). The concrete container
is in a source file missing from the excerpt. -/
abbrev OutcomeSet := Finset Outcome

/-- Modelled from the spec: `Contains` is the superset-or-equal test — set A
contains set B iff every Outcome in B is also in A (§3). The method body is in
a source file missing from the excerpt. -/
def OutcomeSet.Contains (a b : OutcomeSet) : Prop := b ⊆ a

instance (a b : OutcomeSet) : Decidable (OutcomeSet.Contains a b) :=
  inferInstanceAs (Decidable (b ⊆ a))

/-- The closed set of models.  `SCModel\x7b\x7d` and `TSOModel\x7bStoreMFence bool\x7d`
are struct types whose bodies are in source files missing from the excerpt;
only their identity and display name are observed by the driver. -/
inductive ModelKind where
  | SCModel
  | TSOModel (storeMFence : Bool)
deriving DecidableEq, Repr

/-- Source line 208:
`var models = []Model\x7bSCModel\x7b\x7d, TSOModel\x7b\x7d, TSOModel\x7bStoreMFence: true\x7d\x7d`. -/
def models : List ModelKind :=
  [ModelKind.SCModel, ModelKind.TSOModel false, ModelKind.TSOModel true]

/-- The number of models, `len(models)`. -/
abbrev nModels : Nat := models.length

/-- The model at index i of the `models` slice. -/
def modelAt (i : Fin nModels) : ModelKind := models.get i

/-- The counterexample table `counterexamples[i][j]` (source lines 218-223):
a square matrix of programs indexed by ordered model pairs. -/
abbrev Table := Fin nModels → Fin nModels → Prog

/-- Source lines 220-223: the table starts filled with zero-value programs. -/
def initialTable : Table := fun _ _ => zeroProg

/-- The emptiness criterion for a table cell: the first operation of the first
thread of the stored program has type `OpExit` (the test written at source
lines 242 and 309). -/
def cexIsEmpty (p : Prog) : Prop := p.firstOpType = OpType.OpExit

instance (p : Prog) : Decidable (cexIsEmpty p) :=
  inferInstanceAs (Decidable (p.firstOpType = OpType.OpExit))

/-- Source lines 233-235: `for i, model := range models { model.Eval(&p, &outcomes[i]) }` —
the outcome set of every model on the current program.  The evaluators
themselves are in source files missing from the excerpt, so evaluation is a
parameter. -/
def evalAll (eval : ModelKind → Prog → OutcomeSet) (p : Prog) : Fin nModels → OutcomeSet :=
  fun i => eval (modelAt i) p

/-- Source lines 237-258: one pass of the comparator's nested loop over all
ordered pairs, updating the counterexample table for program `p`.  Each cell
(i, j) is read and written only by its own iteration, so the in-place update
is the same as this simultaneous one. -/
def stepTable (eval : ModelKind → Prog → OutcomeSet) (t : Table) (p : Prog) : Table :=
  fun i j =>
    if i = j then t i j
    else if (t i j).firstOpType ≠ OpType.OpExit then t i j
    else if evalAll eval p i = evalAll eval p j then t i j
    else if OutcomeSet.Contains (evalAll eval p i) (evalAll eval p j) then p
    else t i j

/-- The comparator run over a whole generated sequence: fold `stepTable` from
the zero-filled table (source lines 227-258). -/
def runTable (eval : ModelKind → Prog → OutcomeSet) (ps : List Prog) : Table :=
  ps.foldl (stepTable eval) initialTable

/-- Go `%q` applied to a model value: `fmt` calls the model's `String` method
and wraps the result in double quotes. -/
def goQuote (s : String) : String := "\"" ++ s ++ "\""

/-- Source line 317: `strings.Replace(p.String(), "\n", "\n# ", -1)` —
every newline of the witness text is followed by a comment marker. -/
def replaceNL (s : String) : String :=
  String.mk (s.data.foldr
    (fun c acc => if c = '\n' then '\n' :: '#' :: ' ' :: acc else c :: acc) [])

/-- Source line 300: `fmt.Fprintf(w, "%q;\n", model)` — one quoted node
statement for a model. -/
def nodeText (name : ModelKind → String) (m : ModelKind) : String :=
  goQuote (name m) ++ ";\n"

/-- Source lines 304-321: the text the emitter produces for the ordered pair
(i, j): nothing on the diagonal; an edge when the cell holds no
counterexample; otherwise a comment line naming the weaker/stronger
relationship followed by the witness program's text with every line prefixed
as a comment.  `name` is the models' `String` method and `pstr` is
`Prog.String`, both in source files missing from the excerpt. -/
def pairText (name : ModelKind → String) (pstr : Prog → String) (cexs : Table)
    (i j : Fin nModels) : String :=
  if i = j then ""
  else if (cexs i j).firstOpType = OpType.OpExit then
    goQuote (name (modelAt i)) ++ " -> " ++ goQuote (name (modelAt j)) ++ ";\n"
  else
    "# " ++ goQuote (name (modelAt i)) ++ " is weaker than " ++ goQuote (name (modelAt j)) ++ ";\n"
      ++ ("# " ++ replaceNL (pstr (cexs i j)) ++ "\n")

/-- Source lines 288-323: `writeModelGraph` — the text written to `w`,
accumulated in the order of the `fmt.Fprint` calls. -/
def writeModelGraph (name : ModelKind → String) (pstr : Prog → String) (cexs : Table) : String :=
  let w := "digraph memmodel \x7b\n"
  let w := w ++ "label=\"A -> B means A is stronger than or equal to B\";\n"
  let w := models.foldl (fun w m => w ++ nodeText name m) w
  let w := (List.finRange nModels).foldl
      (fun w i => (List.finRange nModels).foldl
        (fun w j => w ++ pairText name pstr cexs i j) w) w
  w ++ "\x7d\n"

/-- Modelled from the spec: the §6 graph output format — the digraph wrapper,
exactly one label declaration, one quoted node statement per model (so every
model appears even with no edges), and for every ordered pair of distinct
models either a directed edge (cell empty) or a comment line naming the
weaker/stronger relationship followed by the witness text with every line
prefixed as a comment (cell holds a witness). -/
def specGraphText (name : ModelKind → String) (pstr : Prog → String) (cexs : Table) : String :=
  "digraph memmodel \x7b\n"
    ++ "label=\"A -> B means A is stronger than or equal to B\";\n"
    ++ String.join (models.map (fun m => nodeText name m))
    ++ String.join ((List.finRange nModels).map (fun i =>
        String.join ((List.finRange nModels).map
          (fun j => pairText name pstr cexs i j))))
    ++ "\x7d\n"

/-- The observable file-system and console effects of `main`.  The
constructor `fileRename` exists so that absence of any rename in a trace is a
meaningful statement; the driver never performs one. -/
inductive Event where
  | progressLine (n : Nat)
  | fileCreate (path : String)
  | fileWrite (path : String) (content : String)
  | fileClose (path : String)
  | fileRename (src dst : String)
  | stdoutWrite (content : String)
deriving DecidableEq, Repr

/-- Whether an event is a rename of one path over another. -/
def Event.isRename : Event → Bool
  | Event.fileRename _ _ => true
  | _ => false

/-- The outcome of a `main` run: its effect trace and its exit code. -/
structure RunResult where
  events : List Event
  exitCode : Nat

/-- Source lines 228-230: `if n%10 == 0 { fmt.Fprintf(os.Stderr, "\r%d progs", n) }`,
evaluated before `n++`. -/
def progressPre (n : Nat) : List Event :=
  if n % 10 = 0 then [Event.progressLine n] else []

/-- Source lines 225-286: the body of `main` after flag handling.  `n` is the
program counter, `cc` counts `os.Create` calls (so `createFails` can address
each create attempt), `t` is the counterexample table.  Each iteration prints
progress every 10 programs, evaluates all models, updates the table, and
every 100 programs (with `-o` set) re-creates the output file in place and
writes the current graph to it; a failed create prints the error and exits 1.
After the sequence is exhausted the final graph is written to the `-o` path
if given (again via a fresh in-place create) and to standard output
otherwise. -/
def mainLoop (eval : ModelKind → Prog → OutcomeSet) (name : ModelKind → String)
    (pstr : Prog → String) (flagOut : String) (createFails : Nat → Bool) :
    List Prog → Nat → Nat → Table → RunResult
  | [], n, cc, t =>
    if flagOut ≠ "" then
      if createFails cc then RunResult.mk [Event.progressLine n] 1
      else
        RunResult.mk
          [Event.progressLine n, Event.fileCreate flagOut,
            Event.fileWrite flagOut (writeModelGraph name pstr t),
            Event.fileClose flagOut] 0
    else
      RunResult.mk
        [Event.progressLine n, Event.stdoutWrite (writeModelGraph name pstr t)] 0
  | p :: ps, n, cc, t =>
    if (n + 1) % 100 = 0 ∧ flagOut ≠ "" then
      if createFails cc then RunResult.mk (progressPre n) 1
      else
        RunResult.mk
          (progressPre n ++ Event.fileCreate flagOut ::
            Event.fileWrite flagOut (writeModelGraph name pstr (stepTable eval t p)) ::
            Event.fileClose flagOut ::
            (mainLoop eval name pstr flagOut createFails ps (n + 1) (cc + 1)
              (stepTable eval t p)).events)
          (mainLoop eval name pstr flagOut createFails ps (n + 1) (cc + 1)
            (stepTable eval t p)).exitCode
    else
      RunResult.mk
        (progressPre n ++ (mainLoop eval name pstr flagOut createFails ps (n + 1) cc
          (stepTable eval t p)).events)
        (mainLoop eval name pstr flagOut createFails ps (n + 1) cc
          (stepTable eval t p)).exitCode

/-- Source lines 210-286: `main`.  `args` are the positional arguments left
after flag parsing (`flag.NArg() > 0` aborts with `flag.Usage()` and exit
code 2), `flagOut` is the `-o` flag value (empty string when unset), `progs`
is the sequence produced by `GenerateProgs`. -/
def mainRun (eval : ModelKind → Prog → OutcomeSet) (name : ModelKind → String)
    (pstr : Prog → String) (args : List String) (flagOut : String)
    (createFails : Nat → Bool) (progs : List Prog) : RunResult :=
  if args.length > 0 then RunResult.mk [] 2
  else mainLoop eval name pstr flagOut createFails progs 0 0 initialTable

/-- Concrete model-index 0 (the SC model). -/
def idx0 : Fin nModels := ⟨0, by decide⟩

/-- Concrete model-index 1 (the plain TSO model). -/
def idx1 : Fin nModels := ⟨1, by decide⟩

/-- A concrete one-element outcome set. -/
def osSmall : OutcomeSet := {[0, 0]}

/-- A concrete two-element outcome set, a proper superset of `osSmall`. -/
def osBig : OutcomeSet := {[0, 0], [1, 0]}

/-- A concrete non-sentinel operation. -/
def storeOp : Op := ⟨OpType.OpStore, 0, 1⟩

/-- A concrete program whose first operation is a store (so it does not look
like an empty table cell). -/
def progW : Prog := ⟨fun _ => ⟨fun k => if k = 0 then storeOp else zeroOp⟩⟩

/-- A concrete evaluation function: plain TSO permits strictly more outcomes
than the two others. -/
def evalW : ModelKind → Prog → OutcomeSet
  | ModelKind.SCModel, _ => osSmall
  | ModelKind.TSOModel b, _ => if b then osSmall else osBig

/-- A differently written evaluation function that agrees with `evalW` on
`progW`. -/
def evalW2 : ModelKind → Prog → OutcomeSet := fun m _ => evalW m progW

/-- A concrete table whose every cell is occupied. -/
def tW : Table := fun _ _ => progW

/-- Concrete display names for the three models. -/
def nameW : ModelKind → String
  | ModelKind.SCModel => "SC"
  | ModelKind.TSOModel b => if b then "TSO+MFENCE" else "TSO"

/-- A concrete program-rendering function. -/
def pstrW : Prog → String := fun _ => "prog text"

/-- A create-call oracle under which every `os.Create` succeeds. -/
def cfFalse : Nat → Bool := fun _ => false

/-- A create-call oracle under which every `os.Create` fails. -/
def cfTrue : Nat → Bool := fun _ => true

/-! ## Helper lemmas -/

lemma stepTable_preserves_nonempty (eval : ModelKind → Prog → OutcomeSet)
    (t : Table) (p : Prog) (i j : Fin nModels)
    (h : ¬ cexIsEmpty (t i j)) : stepTable eval t p i j = t i j := by
  have h' : (t i j).firstOpType ≠ OpType.OpExit := h
  unfold stepTable
  by_cases hij : i = j
  · rw [if_pos hij]
  · rw [if_neg hij, if_pos h']

lemma foldl_stepTable_preserves (eval : ModelKind → Prog → OutcomeSet)
    (qs : List Prog) :
    ∀ (t : Table) (i j : Fin nModels), ¬ cexIsEmpty (t i j) →
      qs.foldl (stepTable eval) t i j = t i j := by
  induction qs with
  | nil => intro t i j _; rfl
  | cons q qs ih =>
    intro t i j h
    have hstep := stepTable_preserves_nonempty eval t q i j h
    have h' : ¬ cexIsEmpty (stepTable eval t q i j) := by rw [hstep]; exact h
    calc (q :: qs).foldl (stepTable eval) t i j
        = qs.foldl (stepTable eval) (stepTable eval t q) i j := rfl
      _ = stepTable eval t q i j := ih _ i j h'
      _ = t i j := hstep

lemma stepTable_diag (eval : ModelKind → Prog → OutcomeSet)
    (t : Table) (p : Prog) (i : Fin nModels) :
    stepTable eval t p i i = t i i := by
  unfold stepTable
  rw [if_pos rfl]

/-! ## Claim theorems: the comparator -/

/-- C1: for every generated program `p` and every ordered pair (i, j) of
distinct models whose counterexample cell is still empty, the comparator
records `p` as the witness for (i, j) exactly when model i's outcome set is a
proper superset of model j's (contains it but is not equal); when the sets
are equal, or when i's set does not contain j's, the cell is left
unchanged. -/
theorem C1_records_iff_proper_superset (eval : ModelKind → Prog → OutcomeSet)
    (t : Table) (p : Prog) (i j : Fin nModels)
    (hij : i ≠ j) (hempty : cexIsEmpty (t i j)) :
    (evalAll eval p j ⊂ evalAll eval p i → stepTable eval t p i j = p) ∧
    (¬ evalAll eval p j ⊂ evalAll eval p i → stepTable eval t p i j = t i j) := by
  have hempty' : (t i j).firstOpType = OpType.OpExit := hempty
  unfold stepTable
  rw [if_neg hij, if_neg (not_not_intro hempty')]
  constructor
  · intro hss
    rcases Finset.ssubset_iff_subset_ne.mp hss with ⟨hsub, hne⟩
    have hContains : OutcomeSet.Contains (evalAll eval p i) (evalAll eval p j) := hsub
    rw [if_neg (fun he => hne he.symm), if_pos hContains]
  · intro hns
    by_cases heq : evalAll eval p i = evalAll eval p j
    · rw [if_pos heq]
    · rw [if_neg heq]
      have hnc : ¬ OutcomeSet.Contains (evalAll eval p i) (evalAll eval p j) := by
        intro hc
        exact hns (Finset.ssubset_iff_subset_ne.mpr ⟨hc, fun h => heq h.symm⟩)
      rw [if_neg hnc]

theorem C1_witness :
    stepTable evalW initialTable progW idx1 idx0 = progW ∧
    stepTable evalW initialTable progW idx0 idx1 = initialTable idx0 idx1 :=
  ⟨(C1_records_iff_proper_superset evalW initialTable progW idx1 idx0
      (by decide) (by decide)).1 (by decide),
    (C1_records_iff_proper_superset evalW initialTable progW idx0 idx1
      (by decide) (by decide)).2 (by decide)⟩

/-- C2: once a counterexample cell holds a witness (a program that does not
look like the empty sentinel), no later generated program ever overwrites
it: after processing any further programs the cell still holds the first
discovered witness. -/
theorem C2_first_witness_retained (eval : ModelKind → Prog → OutcomeSet)
    (ps qs : List Prog) (i j : Fin nModels)
    (h : ¬ cexIsEmpty (runTable eval ps i j)) :
    runTable eval (ps ++ qs) i j = runTable eval ps i j := by
  unfold runTable at h ⊢
  rw [List.foldl_append]
  exact foldl_stepTable_preserves eval qs _ i j h

theorem C2_witness :
    runTable evalW ([progW] ++ [progW, progW]) idx1 idx0 = runTable evalW [progW] idx1 idx0 :=
  C2_first_witness_retained evalW [progW] [progW, progW] idx1 idx0 (by decide)

/-- C3: a counterexample-table cell is considered empty exactly when the
first operation of the first thread of the stored program has type `OpExit`;
the comparator's already-have-a-witness test and the graph emitter's
edge-versus-counterexample decision both use this same criterion. -/
theorem C3_empty_criterion_shared :
    (∀ p : Prog, cexIsEmpty p ↔ p.firstOpType = OpType.OpExit)
    ∧ (∀ (eval : ModelKind → Prog → OutcomeSet) (t : Table) (p : Prog)
        (i j : Fin nModels), ¬ cexIsEmpty (t i j) → stepTable eval t p i j = t i j)
    ∧ (∀ (name : ModelKind → String) (pstr : Prog → String) (cexs : Table)
        (i j : Fin nModels), i ≠ j →
        (cexIsEmpty (cexs i j) →
          pairText name pstr cexs i j =
            goQuote (name (modelAt i)) ++ " -> " ++ goQuote (name (modelAt j)) ++ ";\n")
        ∧ (¬ cexIsEmpty (cexs i j) →
          pairText name pstr cexs i j =
            "# " ++ goQuote (name (modelAt i)) ++ " is weaker than " ++ goQuote (name (modelAt j)) ++ ";\n"
              ++ ("# " ++ replaceNL (pstr (cexs i j)) ++ "\n"))) := by
  refine ⟨fun p => Iff.rfl, ?_, ?_⟩
  · intro eval t p i j h
    exact stepTable_preserves_nonempty eval t p i j h
  · intro name pstr cexs i j hij
    constructor
    · intro hemp
      have hemp' : (cexs i j).firstOpType = OpType.OpExit := hemp
      unfold pairText
      rw [if_neg hij, if_pos hemp']
    · intro hne
      have hne' : ¬ (cexs i j).firstOpType = OpType.OpExit := hne
      unfold pairText
      rw [if_neg hij, if_neg hne']

theorem C3_witness :
    stepTable evalW tW progW idx0 idx1 = tW idx0 idx1 ∧
    pairText nameW pstrW tW idx0 idx1 =
      "# " ++ goQuote (nameW (modelAt idx0)) ++ " is weaker than " ++ goQuote (nameW (modelAt idx1)) ++ ";\n"
        ++ ("# " ++ replaceNL (pstrW (tW idx0 idx1)) ++ "\n") :=
  ⟨C3_empty_criterion_shared.2.1 evalW tW progW idx0 idx1 (by decide),
    (C3_empty_criterion_shared.2.2 nameW pstrW tW idx0 idx1 (by decide)).2 (by decide)⟩

/-- C8: the evaluated models are exactly SC, TSO and TSO-with-store-fence;
the comparator's table update for a program depends only on the three
models' evaluations of that program (all are computed before the update);
and a program survives its iteration only as a table cell, which receives
the program value itself. -/
theorem C8_lifecycle (eval : ModelKind → Prog → OutcomeSet) (t : Table) (p : Prog) :
    models = [ModelKind.SCModel, ModelKind.TSOModel false, ModelKind.TSOModel true]
    ∧ (∀ eval' : ModelKind → Prog → OutcomeSet,
        (∀ i : Fin nModels, eval' (modelAt i) p = eval (modelAt i) p) →
        stepTable eval' t p = stepTable eval t p)
    ∧ (∀ i j : Fin nModels, stepTable eval t p i j = t i j ∨ stepTable eval t p i j = p) := by
  refine ⟨rfl, ?_, ?_⟩
  · intro eval' h
    funext i j
    unfold stepTable evalAll
    rw [h i, h j]
  · intro i j
    unfold stepTable
    split_ifs <;> first | exact Or.inl rfl | exact Or.inr rfl

theorem C8_witness :
    stepTable evalW2 initialTable progW = stepTable evalW initialTable progW :=
  (C8_lifecycle evalW initialTable progW).2.1 evalW2 (fun _ => rfl)

/-- C10: the diagonal cell (i, i) is never written during the entire run —
it keeps the initial zero-value sentinel program — and the graph emitter
outputs neither an edge nor a counterexample comment for the pair (i, i). -/
theorem C10_diagonal_untouched (eval : ModelKind → Prog → OutcomeSet)
    (ps : List Prog) (name : ModelKind → String) (pstr : Prog → String)
    (cexs : Table) (i : Fin nModels) :
    runTable eval ps i i = zeroProg ∧ pairText name pstr cexs i i = "" := by
  constructor
  · have hfold : ∀ (t : Table), ps.foldl (stepTable eval) t i i = t i i := by
      induction ps with
      | nil => intro t; rfl
      | cons q qs ih =>
        intro t
        calc (q :: qs).foldl (stepTable eval) t i i
            = qs.foldl (stepTable eval) (stepTable eval t q) i i := rfl
          _ = stepTable eval t q i i := ih _
          _ = t i i := stepTable_diag eval t q i
    exact hfold initialTable
  · unfold pairText
    rw [if_pos rfl]

/-! ## Claim theorems: the graph emitter -/

lemma foldl_strAppend (l : List String) (s : String) :
    l.foldl (fun a b => a ++ b) s = s ++ String.join l := by
  induction l generalizing s with
  | nil => simp [String.join]
  | cons x xs ih =>
    show xs.foldl _ (s ++ x) = s ++ String.join (x :: xs)
    rw [ih (s ++ x)]
    have hx : String.join (x :: xs) = x ++ String.join xs := by
      show xs.foldl _ ("" ++ x) = _
      rw [ih ("" ++ x), String.empty_append]
    rw [hx, String.append_assoc]

lemma foldl_append_join {α : Type} (f : α → String) (l : List α) (s : String) :
    l.foldl (fun acc x => acc ++ f x) s = s ++ String.join (l.map f) := by
  rw [← List.foldl_map, foldl_strAppend]

/-- C4: the emitted graph text consists of exactly the digraph wrapper, one
label declaration, one quoted node statement per model (so every model
appears even with no edges), a directed edge for every ordered pair of
distinct models whose table cell is empty, and, for every ordered pair whose
cell holds a witness, a comment line naming the weaker/stronger relationship
followed by the witness program's text with every line prefixed as a
comment — i.e. the emitter's accumulated output equals the structure the
specification describes. -/
theorem C4_graph_format (name : ModelKind → String) (pstr : Prog → String)
    (cexs : Table) :
    writeModelGraph name pstr cexs = specGraphText name pstr cexs := by
  have hinner :
      (fun (w : String) (i : Fin nModels) =>
          (List.finRange nModels).foldl
            (fun w j => w ++ pairText name pstr cexs i j) w)
        = fun (w : String) (i : Fin nModels) =>
            w ++ String.join ((List.finRange nModels).map
              (fun j => pairText name pstr cexs i j)) := by
    funext w i
    exact foldl_append_join _ _ _
  simp only [writeModelGraph, specGraphText]
  rw [foldl_append_join, hinner, foldl_append_join]

/-- C9: each model renders to a single display string; the identical quoted
string `goQuote (name m)` is used both for that model's node statement in the
graph and in every counterexample comment line that names the model. -/
theorem C9_display_name_shared (name : ModelKind → String) (pstr : Prog → String)
    (cexs : Table) (i j : Fin nModels)
    (hij : i ≠ j) (hw : ¬ cexIsEmpty (cexs i j)) :
    (∀ m : ModelKind, nodeText name m = goQuote (name m) ++ ";\n")
    ∧ pairText name pstr cexs i j =
        "# " ++ goQuote (name (modelAt i)) ++ " is weaker than " ++ goQuote (name (modelAt j)) ++ ";\n"
          ++ ("# " ++ replaceNL (pstr (cexs i j)) ++ "\n") := by
  have hw' : ¬ (cexs i j).firstOpType = OpType.OpExit := hw
  constructor
  · intro m
    rfl
  · unfold pairText
    rw [if_neg hij, if_neg hw']

theorem C9_witness :
    pairText nameW pstrW tW idx1 idx0 =
      "# " ++ goQuote (nameW (modelAt idx1)) ++ " is weaker than " ++ goQuote (nameW (modelAt idx0)) ++ ";\n"
        ++ ("# " ++ replaceNL (pstrW (tW idx1 idx0)) ++ "\n") :=
  (C9_display_name_shared nameW pstrW tW idx1 idx0 (by decide) (by decide)).2

/-! ## Helper lemmas: the main loop -/

lemma mainLoop_exit_one (eval : ModelKind → Prog → OutcomeSet)
    (name : ModelKind → String) (pstr : Prog → String) (flagOut : String)
    (createFails : Nat → Bool) (hout : flagOut ≠ "") :
    ∀ (ps : List Prog) (n cc : Nat) (t : Table), createFails cc = true →
      (mainLoop eval name pstr flagOut createFails ps n cc t).exitCode = 1 := by
  intro ps
  induction ps with
  | nil =>
    intro n cc t hcf
    simp [mainLoop, hout, hcf]
  | cons p ps ih =>
    intro n cc t hcf
    by_cases hcond : (n + 1) % 100 = 0 ∧ flagOut ≠ ""
    · simp [mainLoop, hcond, hcf]
    · simp only [mainLoop, if_neg hcond]
      exact ih (n + 1) cc _ hcf

lemma mainLoop_exit_zero (eval : ModelKind → Prog → OutcomeSet)
    (name : ModelKind → String) (pstr : Prog → String) (flagOut : String)
    (createFails : Nat → Bool) (hcf : ∀ k, createFails k = false) :
    ∀ (ps : List Prog) (n cc : Nat) (t : Table),
      (mainLoop eval name pstr flagOut createFails ps n cc t).exitCode = 0 := by
  intro ps
  induction ps with
  | nil =>
    intro n cc t
    by_cases hout : flagOut ≠ "" <;> simp [mainLoop, hout, hcf]
  | cons p ps ih =>
    intro n cc t
    by_cases hcond : (n + 1) % 100 = 0 ∧ flagOut ≠ "" <;>
      simp [mainLoop, hcond, hcf, ih]

lemma mainLoop_events_final (eval : ModelKind → Prog → OutcomeSet)
    (name : ModelKind → String) (pstr : Prog → String) (flagOut : String)
    (createFails : Nat → Bool) (hout : flagOut ≠ "") (hcf : ∀ k, createFails k = false) :
    ∀ (ps : List Prog) (n cc : Nat) (t : Table), ∃ pre : List Event,
      (mainLoop eval name pstr flagOut createFails ps n cc t).events =
        pre ++ [Event.fileCreate flagOut,
          Event.fileWrite flagOut (writeModelGraph name pstr (ps.foldl (stepTable eval) t)),
          Event.fileClose flagOut] := by
  intro ps
  induction ps with
  | nil =>
    intro n cc t
    refine ⟨[Event.progressLine n], ?_⟩
    simp [mainLoop, hout, hcf]
  | cons p ps ih =>
    intro n cc t
    by_cases hcond : (n + 1) % 100 = 0 ∧ flagOut ≠ ""
    · obtain ⟨pre, hpre⟩ := ih (n + 1) (cc + 1) (stepTable eval t p)
      refine ⟨progressPre n ++ Event.fileCreate flagOut ::
        Event.fileWrite flagOut (writeModelGraph name pstr (stepTable eval t p)) ::
        Event.fileClose flagOut :: pre, ?_⟩
      simp [mainLoop, hcond, hcf, hpre]
    · obtain ⟨pre, hpre⟩ := ih (n + 1) cc (stepTable eval t p)
      refine ⟨progressPre n ++ pre, ?_⟩
      simp [mainLoop, hcond, hpre]

lemma mainLoop_events_stdout (eval : ModelKind → Prog → OutcomeSet)
    (name : ModelKind → String) (pstr : Prog → String) (createFails : Nat → Bool) :
    ∀ (ps : List Prog) (n cc : Nat) (t : Table), ∃ pre : List Event,
      (mainLoop eval name pstr "" createFails ps n cc t).events =
        pre ++ [Event.stdoutWrite (writeModelGraph name pstr (ps.foldl (stepTable eval) t))] := by
  intro ps
  induction ps with
  | nil =>
    intro n cc t
    refine ⟨[Event.progressLine n], ?_⟩
    simp [mainLoop]
  | cons p ps ih =>
    intro n cc t
    obtain ⟨pre, hpre⟩ := ih (n + 1) cc (stepTable eval t p)
    refine ⟨progressPre n ++ pre, ?_⟩
    simp [mainLoop, hpre]

lemma mainLoop_snapshot_mem (eval : ModelKind → Prog → OutcomeSet)
    (name : ModelKind → String) (pstr : Prog → String) (flagOut : String)
    (createFails : Nat → Bool) (hout : flagOut ≠ "") (hcf : ∀ k, createFails k = false) :
    ∀ (ps : List Prog) (m n cc : Nat) (t : Table),
      m < ps.length → (n + m + 1) % 100 = 0 →
      Event.fileWrite flagOut
          (writeModelGraph name pstr ((ps.take (m + 1)).foldl (stepTable eval) t))
        ∈ (mainLoop eval name pstr flagOut createFails ps n cc t).events := by
  intro ps
  induction ps with
  | nil =>
    intro m n cc t hm
    exact absurd hm (by simp)
  | cons p ps ih =>
    intro m n cc t hm hmod
    cases m with
    | zero =>
      have hcond : (n + 1) % 100 = 0 ∧ flagOut ≠ "" := ⟨by simpa using hmod, hout⟩
      simp [mainLoop, hcond, hcf]
    | succ m =>
      have hm' : m < ps.length := by simpa [Nat.succ_lt_succ_iff] using hm
      have hmod' : (n + 1 + m + 1) % 100 = 0 := by
        have : n + 1 + m + 1 = n + (m + 1) + 1 := by omega
        rw [this]
        exact hmod
      by_cases hcond : (n + 1) % 100 = 0 ∧ flagOut ≠ ""
      · have hmem := ih m (n + 1) (cc + 1) (stepTable eval t p) hm' hmod'
        simp only [mainLoop, if_pos hcond, hcf (cc), Bool.false_eq_true, if_false,
          List.take_succ_cons, List.foldl_cons, List.mem_append, List.mem_cons]
        exact Or.inr (Or.inr (Or.inr (Or.inr hmem)))
      · have hmem := ih m (n + 1) cc (stepTable eval t p) hm' hmod'
        simp only [mainLoop, if_neg hcond, List.take_succ_cons, List.foldl_cons,
          List.mem_append]
        exact Or.inr hmem

/-! ## Claim theorems: main's I/O behaviour -/

/-- C5 (as stated, refuted): a periodic persistence of the graph is NOT an
atomic temp-file-and-rename write: at a concrete periodic snapshot the run's
trace contains a create of the output path itself and no rename event at
all — the output file is truncated and rewritten in place. -/
theorem C5_counterexample :
    (mainLoop evalW nameW pstrW "out.dot" cfFalse [progW] 99 0 initialTable).events.filter
        Event.isRename = []
    ∧ Event.fileCreate "out.dot" ∈
        (mainLoop evalW nameW pstrW "out.dot" cfFalse [progW] 99 0 initialTable).events := by
  decide

/-- C5 (amended): each periodic persistence re-creates the configured output
file in place — create, write, close directly on the output path, with no
temporary file and no rename (the source comments that dot's inotify
handling is the reason), so a reader may observe a partially written
file. -/
theorem C5_inplace_periodic_write (eval : ModelKind → Prog → OutcomeSet)
    (name : ModelKind → String) (pstr : Prog → String) (flagOut : String)
    (createFails : Nat → Bool) (ps : List Prog) (p : Prog) (n cc : Nat) (t : Table)
    (hout : flagOut ≠ "") (hn : (n + 1) % 100 = 0) (hcf : createFails cc = false) :
    (mainLoop eval name pstr flagOut createFails (p :: ps) n cc t).events =
      progressPre n ++ Event.fileCreate flagOut ::
        Event.fileWrite flagOut (writeModelGraph name pstr (stepTable eval t p)) ::
        Event.fileClose flagOut ::
        (mainLoop eval name pstr flagOut createFails ps (n + 1) (cc + 1)
          (stepTable eval t p)).events := by
  have hcond : (n + 1) % 100 = 0 ∧ flagOut ≠ "" := ⟨hn, hout⟩
  simp [mainLoop, hcond, hcf]

theorem C5_witness :
    (mainLoop evalW nameW pstrW "out.dot" cfFalse (progW :: []) 99 0 initialTable).events =
      progressPre 99 ++ Event.fileCreate "out.dot" ::
        Event.fileWrite "out.dot" (writeModelGraph nameW pstrW (stepTable evalW initialTable progW)) ::
        Event.fileClose "out.dot" ::
        (mainLoop evalW nameW pstrW "out.dot" cfFalse [] 100 1
          (stepTable evalW initialTable progW)).events :=
  C5_inplace_periodic_write evalW nameW pstrW "out.dot" cfFalse [] progW 99 0
    initialTable (by decide) (by decide) rfl

/-- C6: one or more positional arguments exit with the fixed usage status 2;
failure to create the output file (first failing create, whether it happens
at a periodic snapshot or at completion) exits with status 1; the two codes
are distinct and non-zero, and normal completion exits 0. -/
theorem C6_exit_codes (eval : ModelKind → Prog → OutcomeSet)
    (name : ModelKind → String) (pstr : Prog → String) (args : List String)
    (flagOut : String) (createFails : Nat → Bool) (progs : List Prog) :
    (args ≠ [] → (mainRun eval name pstr args flagOut createFails progs).exitCode = 2)
    ∧ (args = [] → flagOut ≠ "" → createFails 0 = true →
        (mainRun eval name pstr args flagOut createFails progs).exitCode = 1)
    ∧ (args = [] → (∀ k, createFails k = false) →
        (mainRun eval name pstr args flagOut createFails progs).exitCode = 0)
    ∧ (2 : Nat) ≠ 1 ∧ (2 : Nat) ≠ 0 ∧ (1 : Nat) ≠ 0 := by
  refine ⟨?_, ?_, ?_, by decide, by decide, by decide⟩
  · intro h
    have hlen : args.length > 0 := List.length_pos.mpr h
    simp [mainRun, hlen]
  · intro ha hout hcf0
    subst ha
    show (mainLoop eval name pstr flagOut createFails progs 0 0 initialTable).exitCode = 1
    exact mainLoop_exit_one eval name pstr flagOut createFails hout progs 0 0
      initialTable hcf0
  · intro ha hcf
    subst ha
    show (mainLoop eval name pstr flagOut createFails progs 0 0 initialTable).exitCode = 0
    exact mainLoop_exit_zero eval name pstr flagOut createFails hcf progs 0 0 initialTable

theorem C6_witness :
    (mainRun evalW nameW pstrW ["x"] "" cfFalse []).exitCode = 2
    ∧ (mainRun evalW nameW pstrW [] "out.dot" cfTrue []).exitCode = 1
    ∧ (mainRun evalW nameW pstrW [] "" cfFalse []).exitCode = 0 :=
  ⟨(C6_exit_codes evalW nameW pstrW ["x"] "" cfFalse []).1 (by decide),
    (C6_exit_codes evalW nameW pstrW [] "out.dot" cfTrue []).2.1 rfl (by decide) rfl,
    (C6_exit_codes evalW nameW pstrW [] "" cfFalse []).2.2.1 rfl (fun _ => rfl)⟩

/-- C7: with an output path configured, a snapshot of the graph is written
periodically (here: the snapshot taken after the 100th program) to that path
during the run, and after the generated sequence is exhausted the full result
is written once more at completion — to the configured output path when one
was given, otherwise to standard output. -/
theorem C7_periodic_and_final_output (eval : ModelKind → Prog → OutcomeSet)
    (name : ModelKind → String) (pstr : Prog → String) (flagOut : String)
    (createFails : Nat → Bool) (progs : List Prog)
    (hcf : ∀ k, createFails k = false) :
    (flagOut ≠ "" → 100 ≤ progs.length →
      Event.fileWrite flagOut (writeModelGraph name pstr (runTable eval (progs.take 100)))
        ∈ (mainRun eval name pstr [] flagOut createFails progs).events)
    ∧ (flagOut ≠ "" → ∃ pre : List Event,
        (mainRun eval name pstr [] flagOut createFails progs).events =
          pre ++ [Event.fileCreate flagOut,
            Event.fileWrite flagOut (writeModelGraph name pstr (runTable eval progs)),
            Event.fileClose flagOut])
    ∧ (flagOut = "" → ∃ pre : List Event,
        (mainRun eval name pstr [] flagOut createFails progs).events =
          pre ++ [Event.stdoutWrite (writeModelGraph name pstr (runTable eval progs))]) := by
  refine ⟨?_, ?_, ?_⟩
  · intro hout hlen
    show Event.fileWrite flagOut _ ∈
      (mainLoop eval name pstr flagOut createFails progs 0 0 initialTable).events
    have := mainLoop_snapshot_mem eval name pstr flagOut createFails hout hcf
      progs 99 0 0 initialTable (by omega) (by decide)
    simpa [runTable] using this
  · intro hout
    show ∃ pre, (mainLoop eval name pstr flagOut createFails progs 0 0 initialTable).events = _
    exact mainLoop_events_final eval name pstr flagOut createFails hout hcf
      progs 0 0 initialTable
  · intro hout
    subst hout
    show ∃ pre, (mainLoop eval name pstr "" createFails progs 0 0 initialTable).events = _
    exact mainLoop_events_stdout eval name pstr createFails progs 0 0 initialTable

theorem C7_witness :
    Event.fileWrite "out.dot"
        (writeModelGraph nameW pstrW (runTable evalW ((List.replicate 100 progW).take 100)))
      ∈ (mainRun evalW nameW pstrW [] "out.dot" cfFalse (List.replicate 100 progW)).events :=
  (C7_periodic_and_final_output evalW nameW pstrW "out.dot" cfFalse
      (List.replicate 100 progW) (fun _ => rfl)).1 (by decide) (by simp)
